import Mathlib

/-!
Verification development for the `onedrive-ai-organizer` repository.

The Python sources are shallowly embedded below:

* `graph_get_run` models `graph_get` from
  `src/onedrive_ai_organizer/onedrive_tree.py` (lines 49-81): a pagination
  loop over a finite script of HTTP responses, with the 429/503 throttle
  branch, `Retry-After` backoff, `raise_for_status`, and the
  `@odata.nextLink` continuation.  The run additionally records the request
  trace and the sleep trace so that retry behaviour can be stated.
* `graph_get_legacy` models `graph_get` from `main.py` (lines 73-91), the
  older loop without the throttle branch.
* `walkLoop` / `walk_onedrive` model the explicit-stack traversal
  (`walk_onedrive`, lines 98-136) over a tree of nodes; `walkE` / `run_auto`
  model the same traversal over an abstract children-fetching function
  together with the orchestrator `_run_option_auto_classification`
  (lines 263-287).
* `categorize_file`, `format_original_structure` and
  `format_recommended_structure` model `_categorize_file`,
  `_format_original_structure` and `_format_recommended_structure`.

Machine-level details that the embedding abstracts are noted at each
definition.
-/

deriving instance DecidableEq for Except

namespace ODOrg

/-! ### The paginated fetcher: `graph_get` (onedrive_tree.py lines 49-81) -/

/-- The JSON body of one Graph response, as consumed by `graph_get`:
`data.get("value", [])` and `data.get("@odata.nextLink")`. -/
structure Page (α : Type) where
  value : List α
  nextLink : Option String
deriving DecidableEq, Repr

/-- One scripted HTTP response.  `retryAfter` models the outcome of
`int(float(resp.headers.get("Retry-After", "").strip()))`: `some n` when the
header parses (truncated to an integer), `none` when the parse raises
`ValueError` (in particular when the header is absent).  `body` models
`resp.json()`: `none` when the body is not valid JSON (so `.json()` would
raise). -/
structure Response (α : Type) where
  status : Nat
  retryAfter : Option Int
  body : Option (Page α)
deriving DecidableEq, Repr

/-- Models `resp.status_code in {429, 503}` (line 59). -/
def isThrottle (r : Response α) : Bool :=
  r.status == 429 || r.status == 503

/-- The backoff computed on a throttled response (lines 60-64):
`max(1, int(float(raw)))`, with fallback `2` on `ValueError`. -/
def retrySeconds (r : Response α) : Int :=
  match r.retryAfter with
  | some n => max 1 n
  | none => 2

/-- Note that `requests.Response.raise_for_status` raises `HTTPError` exactly for
status codes in `[400, 600)`. -/
def raisesForStatus (s : Nat) : Bool :=
  400 ≤ s && s < 600

/-- The exceptions `graph_get` can let escape: `HTTPError` from
`raise_for_status`, or the JSON decode error from `resp.json()`. -/
inductive FetchErr where
  | http (status : Nat)
  | jsonDecode
deriving DecidableEq, Repr

/-- The pagination loop of `graph_get` (lines 56-81), runnable on a finite
response script `rs` (responses are consumed in the order the server would
deliver them, one per `requests.get` call).  Returns the loop outcome
(`none` when the script is exhausted while a request is still pending),
together with the trace of issued requests `(url, params)` and the trace of
throttle sleeps.  `params` is set to `none` after each successful page
(line 77). -/
def graph_get_run (rs : List (Response α)) (url : Option String)
    (params : Option P) (items : List α)
    (reqs : List (String × Option P)) (sleeps : List Int) :
    Option (Except FetchErr (List α)) × List (String × Option P) × List Int :=
  match url with
  | none => (some (.ok items), reqs, sleeps)
  | some u =>
    match rs with
    | [] => (none, reqs, sleeps)
    | r :: rest =>
      if isThrottle r then
        graph_get_run rest (some u) params items
          (reqs ++ [(u, params)]) (sleeps ++ [retrySeconds r])
      else if r.status != 200 && raisesForStatus r.status then
        (some (.error (.http r.status)), reqs ++ [(u, params)], sleeps)
      else
        match r.body with
        | none => (some (.error .jsonDecode), reqs ++ [(u, params)], sleeps)
        | some page =>
          graph_get_run rest page.nextLink none (items ++ page.value)
            (reqs ++ [(u, params)]) sleeps

/-- The legacy pagination loop of `graph_get` in `main.py` (lines 73-91):
identical except that there is no throttle branch. -/
def graph_get_legacy (rs : List (Response α)) (url : Option String)
    (_params : Option P) (items : List α) :
    Option (Except FetchErr (List α)) :=
  match url with
  | none => some (.ok items)
  | some _ =>
    match rs with
    | [] => none
    | r :: rest =>
      if r.status != 200 && raisesForStatus r.status then
        some (.error (.http r.status))
      else
        match r.body with
        | none => some (.error .jsonDecode)
        | some page =>
          graph_get_legacy rest page.nextLink (none : Option P) (items ++ page.value)

/-- The `value` lists of the pages of a response script, in page order:
throttled responses contribute nothing, and the collection stops after the
first page with no continuation link. -/
def pageValues : List (Response α) → List (List α)
  | [] => []
  | r :: rest =>
    if isThrottle r then pageValues rest
    else
      match r.body with
      | none => []
      | some page =>
        page.value ::
          (match page.nextLink with
           | some _ => pageValues rest
           | none => [])

/-- The outcome and the trace suffixes of a run do not depend on the trace
accumulators: a run from accumulators `reqs`/`sleeps` is the run from empty
accumulators with `reqs`/`sleeps` prepended. -/
theorem graph_get_run_traces (rs : List (Response α)) :
    ∀ (url : Option String) (params : Option P) (items : List α)
      (reqs : List (String × Option P)) (sleeps : List Int),
      graph_get_run rs url params items reqs sleeps =
        ((graph_get_run rs url params items [] []).1,
         reqs ++ (graph_get_run rs url params items [] []).2.1,
         sleeps ++ (graph_get_run rs url params items [] []).2.2) := by
  induction rs with
  | nil =>
    intro url params items reqs sleeps
    cases url <;> simp [graph_get_run]
  | cons r rest ih =>
    intro url params items reqs sleeps
    cases url with
    | none => simp [graph_get_run]
    | some u =>
      by_cases ht : isThrottle r = true
      · simp only [graph_get_run, ht, if_true, List.nil_append]
        rw [ih, ih (some u) params items [(u, params)] [retrySeconds r]]
        simp
      · by_cases hs : (r.status != 200 && raisesForStatus r.status) = true
        · simp [graph_get_run, ht, hs]
        · cases hb : r.body with
          | none => simp [graph_get_run, ht, hs, hb]
          | some page =>
            simp only [graph_get_run, ht, hs, hb, if_false, Bool.false_eq_true,
              List.nil_append]
            rw [ih, ih page.nextLink none (items ++ page.value) [(u, params)] []]
            simp

/-- Popping one throttled response: the loop retries with the identical
continuation URL, identical params and unchanged accumulated records, after
recording one request and one backoff sleep. -/
theorem graph_get_throttle_step (r : Response α) (rest : List (Response α))
    (u : String) (params : Option P) (items : List α)
    (reqs : List (String × Option P)) (sleeps : List Int)
    (h : isThrottle r = true) :
    graph_get_run (r :: rest) (some u) params items reqs sleeps =
      graph_get_run rest (some u) params items
        (reqs ++ [(u, params)]) (sleeps ++ [retrySeconds r]) := by
  simp [graph_get_run, h]

/-- Whatever the next scripted response is, the first request a (pending)
run issues targets its current URL with its current params. -/
theorem graph_get_first_request (r : Response α) (rest : List (Response α))
    (u : String) (params : Option P) (items : List α) :
    ((graph_get_run (r :: rest) (some u) params items [] []).2.1).head? =
      some (u, params) := by
  by_cases ht : isThrottle r = true
  · rw [graph_get_throttle_step r rest u params items [] [] ht,
      graph_get_run_traces]
    simp
  · by_cases hs : (r.status != 200 && raisesForStatus r.status) = true
    · simp [graph_get_run, ht, hs]
    · cases hb : r.body with
      | none => simp [graph_get_run, ht, hs, hb]
      | some page =>
        simp only [graph_get_run, ht, hs, hb, if_false, Bool.false_eq_true]
        rw [graph_get_run_traces]
        simp

/-- The records still to be produced by a pending run: nothing when the
continuation URL is exhausted, otherwise the concatenation of the remaining
pages. -/
def remainingConcat (url : Option String) (rs : List (Response α)) : List α :=
  match url with
  | none => []
  | some _ => (pageValues rs).flatten

/-- A run over a script of throttles and well-formed `200` pages that ends
in `.ok` returns its accumulator followed by the concatenation of the
remaining pages. -/
theorem graph_get_run_ok_concat (rs : List (Response α)) :
    ∀ (url : Option String) (params : Option P) (acc : List α)
      (reqs : List (String × Option P)) (sleeps : List Int),
      (∀ r ∈ rs, isThrottle r = true ∨ (r.status = 200 ∧ r.body.isSome)) →
      ∀ items, (graph_get_run rs url params acc reqs sleeps).1 = some (.ok items) →
      items = acc ++ remainingConcat url rs := by
  induction rs with
  | nil =>
    intro url params acc reqs sleeps _ items hok
    cases url with
    | none =>
      simp [graph_get_run] at hok
      simp [remainingConcat, hok]
    | some u => simp [graph_get_run] at hok
  | cons r rest ih =>
    intro url params acc reqs sleeps hwf items hok
    cases url with
    | none =>
      simp [graph_get_run] at hok
      simp [remainingConcat, hok]
    | some u =>
      have hwfr := hwf r (List.mem_cons_self r rest)
      have hwfrest : ∀ x ∈ rest, isThrottle x = true ∨ (x.status = 200 ∧ x.body.isSome) :=
        fun x hx => hwf x (List.mem_cons_of_mem r hx)
      by_cases ht : isThrottle r = true
      · rw [graph_get_throttle_step r rest u params acc reqs sleeps ht] at hok
        have := ih (some u) params acc (reqs ++ [(u, params)])
          (sleeps ++ [retrySeconds r]) hwfrest items hok
        simpa [remainingConcat, pageValues, ht] using this
      · rcases hwfr with h429 | ⟨h200, hbody⟩
        · exact absurd h429 ht
        · rcases Option.isSome_iff_exists.mp hbody with ⟨page, hb⟩
          have hs : (r.status != 200 && raisesForStatus r.status) = false := by
            simp [h200]
          rw [show graph_get_run (r :: rest) (some u) params acc reqs sleeps =
              graph_get_run rest page.nextLink none (acc ++ page.value)
                (reqs ++ [(u, params)]) sleeps by
            simp [graph_get_run, ht, hs, hb]] at hok
          have := ih page.nextLink none (acc ++ page.value)
            (reqs ++ [(u, params)]) sleeps hwfrest items hok
          rw [this]
          cases hn : page.nextLink with
          | none => simp [remainingConcat, pageValues, ht, hb, hn]
          | some v => simp [remainingConcat, pageValues, ht, hb, hn]

/-- Claim C1: a run over any script interleaving throttled responses with
well-formed pages that returns successfully yields exactly the
concatenation of each page's `value` records, in page order. -/
theorem graph_get_paginates (rs : List (Response α)) (u : String)
    (params : Option P)
    (hwf : ∀ r ∈ rs, isThrottle r = true ∨ (r.status = 200 ∧ r.body.isSome))
    (items : List α)
    (hok : (graph_get_run rs (some u) params [] [] []).1 = some (.ok items)) :
    items = (pageValues rs).flatten := by
  have := graph_get_run_ok_concat rs (some u) params [] [] [] hwf items hok
  simpa [remainingConcat] using this

/-- Witness for C1: two pages of records with three interleaved throttles;
the run returns the two pages' records concatenated in order. -/
theorem graph_get_paginates_witness :
    ([1, 2, 3] : List Nat) =
      (pageValues [Response.mk 429 (some 5) (some (Page.mk [] none)),
        Response.mk 200 none (some (Page.mk [1, 2] (some "next"))),
        Response.mk 503 none none,
        Response.mk 429 none (some (Page.mk [9] (some "x"))),
        Response.mk 200 none (some (Page.mk [3] none))]).flatten :=
  graph_get_paginates
    [Response.mk 429 (some 5) (some (Page.mk [] none)),
      Response.mk 200 none (some (Page.mk [1, 2] (some "next"))),
      Response.mk 503 none none,
      Response.mk 429 none (some (Page.mk [9] (some "x"))),
      Response.mk 200 none (some (Page.mk [3] none))]
    "https://graph.microsoft.com/v1.0/me/drive/items/root/children"
    (none : Option Unit) (by decide) [1, 2, 3] (by decide)

/-- Claim C2: a throttled (429/503) response contributes zero records,
advances neither the continuation URL nor the params, and is not surfaced
as a failure (the run continues exactly as if started on the remaining
script); and the request issued right after the backoff targets the
identical URL with the identical params. -/
theorem graph_get_throttle_no_effect (r : Response α) (rest : List (Response α))
    (u : String) (params : Option P) (items : List α)
    (reqs : List (String × Option P)) (sleeps : List Int)
    (h : isThrottle r = true) :
    graph_get_run (r :: rest) (some u) params items reqs sleeps =
      graph_get_run rest (some u) params items
        (reqs ++ [(u, params)]) (sleeps ++ [retrySeconds r]) ∧
    (∀ r' rest', rest = r' :: rest' →
      ((graph_get_run (r :: rest) (some u) params items [] []).2.1)[1]? =
        some (u, params)) := by
  refine ⟨graph_get_throttle_step r rest u params items reqs sleeps h, ?_⟩
  intro r' rest' hrest
  subst hrest
  rw [graph_get_throttle_step r _ u params items [] [] h, graph_get_run_traces]
  have hfirst := graph_get_first_request r' rest' u params items
  simp only [List.nil_append, List.cons_append, List.getElem?_cons_succ,
    List.getElem?_cons_zero]
  rw [← List.head?_eq_getElem?]
  exact hfirst

/-- Witness for C2: one 429 response before a single-record page; the 429
step leaves the state untouched and the follow-up request repeats the URL
and params. -/
theorem graph_get_throttle_no_effect_witness :
    graph_get_run [Response.mk 429 none (none : Option (Page Nat)),
        Response.mk 200 none (some (Page.mk [7] none))]
        (some "u") (some "p") [5] [] [] =
      graph_get_run [Response.mk 200 none (some (Page.mk [7] none))]
        (some "u") (some "p") [5] [("u", some "p")] [2] ∧
    ((graph_get_run [Response.mk 429 none (none : Option (Page Nat)),
        Response.mk 200 none (some (Page.mk [7] none))]
        (some "u") (some "p") [5] [] []).2.1)[1]? = some ("u", some "p") :=
  ⟨(graph_get_throttle_no_effect (Response.mk 429 none none)
      [Response.mk 200 none (some (Page.mk [7] none))]
      "u" (some "p") [5] [] [] (by decide)).1,
   (graph_get_throttle_no_effect (Response.mk 429 none none)
      [Response.mk 200 none (some (Page.mk [7] none))]
      "u" (some "p") [5] [] [] (by decide)).2
     (Response.mk 200 none (some (Page.mk [7] none))) [] rfl⟩

/-- Counterexample to C3 as stated: with a present and parseable
`Retry-After` of `0` seconds the code sleeps `max(1, 0) = 1` second, not
the server-supplied hint. -/
theorem backoff_clamp_counterexample :
    (Response.mk 429 (some 0) (none : Option (Page Unit))).retryAfter = some 0 ∧
    isThrottle (Response.mk 429 (some 0) (none : Option (Page Unit))) = true ∧
    (graph_get_run [Response.mk 429 (some 0) (none : Option (Page Unit))]
        (some "u") (none : Option Unit) ([] : List Unit) [] []).2.2 = [1] ∧
    (1 : Int) ≠ 0 := by
  decide

/-- Claim C3 (amended): the backoff slept on a throttled response is
`max 1 hint` when the `Retry-After` hint is present and parseable, and
exactly `2` seconds when it is absent or unparseable. -/
theorem backoff_amended (r : Response α) (rest : List (Response α)) (u : String)
    (params : Option P) (items : List α) (h : isThrottle r = true) :
    ((graph_get_run (r :: rest) (some u) params items [] []).2.2).head? =
      some (retrySeconds r) ∧
    (∀ n, r.retryAfter = some n → retrySeconds r = max 1 n) ∧
    (r.retryAfter = none → retrySeconds r = 2) := by
  refine ⟨?_, ?_, ?_⟩
  · rw [graph_get_throttle_step r rest u params items [] [] h,
      graph_get_run_traces]
    simp
  · intro n hn
    simp [retrySeconds, hn]
  · intro hn
    simp [retrySeconds, hn]

/-- Witness for the amended C3: a 503 with `Retry-After: 7` sleeps
`max 1 7 = 7` seconds. -/
theorem backoff_amended_witness :
    ((graph_get_run [Response.mk 503 (some 7) (none : Option (Page Nat))]
        (some "u") (none : Option Unit) ([] : List Nat) [] []).2.2).head? =
      some (retrySeconds (Response.mk 503 (some 7) (none : Option (Page Nat)))) ∧
    retrySeconds (Response.mk 503 (some 7) (none : Option (Page Nat))) = max 1 7 :=
  ⟨(backoff_amended (Response.mk 503 (some 7) none) [] "u" (none : Option Unit)
      [] (by decide)).1,
   (backoff_amended (Response.mk 503 (some 7) (none : Option (Page Nat))) [] "u"
      (none : Option Unit) [] (by decide)).2.1 7 rfl⟩

/-- Claim C10: on any script with no throttled (429/503) response, the
legacy pagination loop of `main.py` and the resilient loop of
`onedrive_tree.py` produce the identical outcome (and record list). -/
theorem legacy_graph_get_agrees (rs : List (Response α)) :
    ∀ (url : Option String) (params : Option P) (items : List α)
      (reqs : List (String × Option P)) (sleeps : List Int),
      (∀ r ∈ rs, isThrottle r = false) →
      graph_get_legacy rs url params items =
        (graph_get_run rs url params items reqs sleeps).1 := by
  induction rs with
  | nil =>
    intro url params items reqs sleeps _
    cases url <;> simp [graph_get_run, graph_get_legacy]
  | cons r rest ih =>
    intro url params items reqs sleeps hnt
    cases url with
    | none => simp [graph_get_run, graph_get_legacy]
    | some u =>
      have hr := hnt r (List.mem_cons_self r rest)
      have hrest : ∀ x ∈ rest, isThrottle x = false :=
        fun x hx => hnt x (List.mem_cons_of_mem r hx)
      by_cases hs : (r.status != 200 && raisesForStatus r.status) = true
      · simp [graph_get_run, graph_get_legacy, hr, hs]
      · cases hb : r.body with
        | none => simp [graph_get_run, graph_get_legacy, hr, hs, hb]
        | some page =>
          simp only [graph_get_run, graph_get_legacy, hr, hs, hb, if_false,
            Bool.false_eq_true, if_neg, reduceIte]
          exact ih page.nextLink none (items ++ page.value) _ _ hrest

/-- Witness for C10: a two-page throttle-free script, on which the legacy
and the resilient loop agree. -/
theorem legacy_graph_get_agrees_witness :
    graph_get_legacy [Response.mk 200 none (some (Page.mk [1] (some "next"))),
        Response.mk 200 none (some (Page.mk [2] none))]
        (some "u") (some "p") ([] : List Nat) =
      (graph_get_run [Response.mk 200 none (some (Page.mk [1] (some "next"))),
        Response.mk 200 none (some (Page.mk [2] none))]
        (some "u") (some "p") ([] : List Nat) [] []).1 :=
  legacy_graph_get_agrees
    [Response.mk 200 none (some (Page.mk [1] (some "next"))),
      Response.mk 200 none (some (Page.mk [2] none))]
    (some "u") (some "p") [] [] [] (by decide)

/-! ### The tree walker: `walk_onedrive` (onedrive_tree.py lines 98-136)

The drive served by the children endpoints is modelled as a finite tree:
the external guarantee the spec cites (the hierarchy is finite and
acyclic, and each node id resolves to one node) is what makes the server
a tree of `Node`s.  A child dict is a folder exactly when it has a
`"folder"` facet, which the tree records in the constructor. -/

/-- The metadata fields of one drive item that `walk_onedrive` consumes. -/
structure Meta where
  id : String
  name : String
  size : Nat
  lastModified : Option String
  webUrl : Option String
deriving DecidableEq, Repr

/-- One node of the drive hierarchy: a file, or a folder with its children
(the list the node's `/children` endpoint returns, in response order). -/
inductive Node where
  | file : Meta → Node
  | folder : Meta → List Node → Node

/-- The metadata of a node. -/
def Node.meta : Node → Meta
  | .file m => m
  | .folder m _ => m

/-- Models `"folder" in child` (line 110). -/
def Node.isFolderN : Node → Bool
  | .file _ => false
  | .folder _ _ => true

/-- The list returned by the node's children endpoint (empty for a file,
whose endpoint is never queried anyway since files are not pushed). -/
def Node.childrenOf : Node → List Node
  | .file _ => []
  | .folder _ cs => cs

mutual

/-- Number of nodes of a subtree. -/
def nodeSize : Node → Nat
  | .file _ => 1
  | .folder _ cs => 1 + listSize cs

/-- Number of nodes of a forest. -/
def listSize : List Node → Nat
  | [] => 0
  | n :: ns => nodeSize n + listSize ns

end

/-- The dict appended to `results` for each discovered child
(lines 108-128). -/
structure Entry where
  id : String
  path : String
  name : String
  is_folder : Bool
  size : Nat
  last_modified : Option String
  web_url : Option String
deriving DecidableEq, Repr

/-- Models `full_path = f"{current_path}/{name}" if current_path else name`
(line 116). -/
def fullPath (pfx name : String) : String :=
  if pfx = "" then name else pfx ++ "/" ++ name

/-- The Entry built for a child discovered under prefix `pfx`. -/
def entryOf (pfx : String) (n : Node) : Entry :=
  { id := n.meta.id
    path := fullPath pfx n.meta.name
    name := n.meta.name
    is_folder := n.isFolderN
    size := n.meta.size
    last_modified := n.meta.lastModified
    web_url := n.meta.webUrl }

/-- The `for child in children` body (lines 108-132): append one Entry per
child, and push each folder child (with its materialized path) onto the
stack.  The stack's head is its top. -/
def processChildren (pfx : String) :
    List Node → List Entry → List (Node × String) → List Entry × List (Node × String)
  | [], acc, stack => (acc, stack)
  | c :: cs, acc, stack =>
    processChildren pfx cs (acc ++ [entryOf pfx c])
      (if c.isFolderN then (c, fullPath pfx c.meta.name) :: stack else stack)

/-- Total size of the nodes pending on the stack. -/
def stackWeight (stack : List (Node × String)) : Nat :=
  (stack.map (fun p => nodeSize p.1)).sum

theorem nodeSize_pos (n : Node) : 1 ≤ nodeSize n := by
  cases n <;> simp [nodeSize]

theorem nodeSize_eq_children (n : Node) :
    nodeSize n = 1 + listSize n.childrenOf := by
  cases n <;> simp [nodeSize, listSize, Node.childrenOf]

theorem stackWeight_processChildren (pfx : String) :
    ∀ (cs : List Node) (acc : List Entry) (stack : List (Node × String)),
      stackWeight (processChildren pfx cs acc stack).2 ≤
        listSize cs + stackWeight stack := by
  intro cs
  induction cs with
  | nil => intro acc stack; simp [processChildren]
  | cons c cs ih =>
    intro acc stack
    simp only [processChildren]
    by_cases hf : c.isFolderN = true
    · simp only [hf, if_true]
      calc stackWeight (processChildren pfx cs (acc ++ [entryOf pfx c])
              ((c, fullPath pfx c.meta.name) :: stack)).2 ≤
            listSize cs + stackWeight ((c, fullPath pfx c.meta.name) :: stack) :=
              ih _ _
        _ = listSize (c :: cs) + stackWeight stack := by
              simp [listSize, stackWeight]
              ring
    · simp only [hf, if_false, Bool.false_eq_true]
      calc stackWeight (processChildren pfx cs (acc ++ [entryOf pfx c]) stack).2 ≤
            listSize cs + stackWeight stack := ih _ _
        _ ≤ listSize (c :: cs) + stackWeight stack := by
              have := nodeSize_pos c
              simp [listSize]

/-- The `while stack:` loop (lines 102-132): pop one `(node, path)` pair,
fetch its children, process them, and continue until the stack is empty. -/
def walkLoop : List (Node × String) → List Entry → List Entry
  | [], acc => acc
  | (n, pfx) :: stack, acc =>
    walkLoop (processChildren pfx n.childrenOf acc stack).2
      (processChildren pfx n.childrenOf acc stack).1
termination_by stack _ => stackWeight stack
decreasing_by
  simp only [stackWeight, List.map_cons, List.sum_cons]
  calc stackWeight (processChildren pfx n.childrenOf acc stack).2 ≤
        listSize n.childrenOf + stackWeight stack :=
          stackWeight_processChildren pfx n.childrenOf acc stack
    _ < nodeSize n + stackWeight stack := by
        rw [nodeSize_eq_children n]
        omega
    _ = nodeSize n + (stack.map (fun p => nodeSize p.1)).sum := rfl

/-- Models `walk_onedrive` (lines 84-136): resolve the root object, seed the stack
with `(root_id, "")`, run the loop, and return the root name together with
the collected entries. -/
def walk_onedrive (root : Node) : String × List Entry :=
  (root.meta.name, walkLoop [(root, "")] [])

/-- The entries a child loop appends: one per child, in order. -/
theorem processChildren_acc (pfx : String) :
    ∀ (cs : List Node) (acc : List Entry) (stack : List (Node × String)),
      (processChildren pfx cs acc stack).1 = acc ++ cs.map (entryOf pfx) := by
  intro cs
  induction cs with
  | nil => intro acc stack; simp [processChildren]
  | cons c cs ih =>
    intro acc stack
    simp [processChildren, ih]

/-- Every element of the stack a child loop leaves behind is either from
the incoming stack or a folder child paired with its materialized path. -/
theorem processChildren_stack_mem (pfx : String) :
    ∀ (cs : List Node) (acc : List Entry) (stack : List (Node × String)),
      ∀ q ∈ (processChildren pfx cs acc stack).2,
        q ∈ stack ∨
          ∃ c ∈ cs, c.isFolderN = true ∧ q = (c, fullPath pfx c.meta.name) := by
  intro cs
  induction cs with
  | nil => intro acc stack q hq; exact Or.inl (by simpa [processChildren] using hq)
  | cons c cs ih =>
    intro acc stack q hq
    simp only [processChildren] at hq
    by_cases hf : c.isFolderN = true
    · rw [if_pos hf] at hq
      rcases ih _ _ q hq with hin | ⟨c', hc', hfold, hqe⟩
      · rcases List.mem_cons.mp hin with hq1 | hq2
        · exact Or.inr ⟨c, List.mem_cons_self c cs, hf, hq1⟩
        · exact Or.inl hq2
      · exact Or.inr ⟨c', List.mem_cons_of_mem c hc', hfold, hqe⟩
    · rw [if_neg hf] at hq
      rcases ih _ _ q hq with hin | ⟨c', hc', hfold, hqe⟩
      · exact Or.inl hin
      · exact Or.inr ⟨c', List.mem_cons_of_mem c hc', hfold, hqe⟩

/-- Number of entries that expanding every node on the stack will still
produce: each pending subtree of size `k` contributes `k - 1` entries. -/
def entW (stack : List (Node × String)) : Nat :=
  (stack.map (fun p => nodeSize p.1 - 1)).sum

/-- Combined weight of the folder children pushed by a child loop. -/
def foldersWeight : List Node → Nat
  | [] => 0
  | c :: cs => (if c.isFolderN then nodeSize c - 1 else 0) + foldersWeight cs

theorem nodeSize_of_file (c : Node) (h : ¬ c.isFolderN = true) : nodeSize c = 1 := by
  cases c with
  | file m => simp [nodeSize]
  | folder m cs => simp [Node.isFolderN] at h

theorem length_add_foldersWeight (cs : List Node) :
    cs.length + foldersWeight cs = listSize cs := by
  induction cs with
  | nil => simp [foldersWeight, listSize]
  | cons c cs ih =>
    have hpos := nodeSize_pos c
    by_cases hc : c.isFolderN = true
    · simp only [foldersWeight, listSize, List.length_cons, if_pos hc]
      omega
    · have hone := nodeSize_of_file c hc
      simp only [foldersWeight, listSize, List.length_cons, if_neg hc]
      omega

theorem entW_processChildren (pfx : String) :
    ∀ (cs : List Node) (acc : List Entry) (stack : List (Node × String)),
      entW (processChildren pfx cs acc stack).2 = foldersWeight cs + entW stack := by
  intro cs
  induction cs with
  | nil => intro acc stack; simp [processChildren, foldersWeight]
  | cons c cs ih =>
    intro acc stack
    by_cases hc : c.isFolderN = true
    · simp only [processChildren, if_pos hc]
      rw [ih]
      simp only [entW, List.map_cons, List.sum_cons, foldersWeight, if_pos hc]
      omega
    · simp only [processChildren, if_neg hc]
      rw [ih]
      simp only [entW, foldersWeight, if_neg hc]
      omega

/-- The loop produces its accumulator followed by exactly `entW stack`
further entries. -/
theorem walkLoop_length :
    ∀ (stack : List (Node × String)) (acc : List Entry),
      (walkLoop stack acc).length = acc.length + entW stack := by
  intro stack acc
  induction stack, acc using walkLoop.induct with
  | case1 acc => simp [walkLoop, entW]
  | case2 n pfx stack acc ih =>
    rw [show walkLoop ((n, pfx) :: stack) acc =
        walkLoop (processChildren pfx n.childrenOf acc stack).2
          (processChildren pfx n.childrenOf acc stack).1 from by
      rw [walkLoop]]
    rw [ih, processChildren_acc, entW_processChildren]
    have hcount := length_add_foldersWeight n.childrenOf
    have hsize := nodeSize_eq_children n
    simp only [entW, List.map_cons, List.sum_cons, List.length_append,
      List.length_map]
    omega

/-- Claim C4: on every finite tree of `N` nodes the walk terminates (the
loop is a total function, by well-founded recursion on the pending stack
weight) and returns exactly `N - 1` entries — every node except the root. -/
theorem walk_counts_entries (root : Node) :
    (walk_onedrive root).2.length = nodeSize root - 1 := by
  simp only [walk_onedrive]
  rw [walkLoop_length]
  simp [entW]

/-- Prefix-consistency invariant carried through the loop: every pending
stack prefix is the empty root prefix or the path of an already-collected
folder entry; every collected entry either sits at root level (path =
name) or extends the path of a collected folder entry by `"/" ++ name`. -/
theorem walkLoop_paths :
    ∀ (stack : List (Node × String)) (acc : List Entry),
      (∀ q ∈ stack, q.2 = "" ∨ ∃ a ∈ acc, a.is_folder = true ∧ a.path = q.2) →
      (∀ e ∈ acc, e.path = e.name ∨
        ∃ a ∈ acc, a.is_folder = true ∧ e.path = a.path ++ "/" ++ e.name) →
      ∀ e ∈ walkLoop stack acc, e.path = e.name ∨
        ∃ a ∈ walkLoop stack acc, a.is_folder = true ∧
          e.path = a.path ++ "/" ++ e.name := by
  intro stack acc
  induction stack, acc using walkLoop.induct with
  | case1 acc =>
    intro _ hacc e he
    rw [walkLoop] at he ⊢
    exact hacc e he
  | case2 n pfx stack acc ih =>
    intro hstk hacc
    rw [walkLoop]
    refine ih ?_ ?_
    · -- the new stack: surviving pairs keep their witness, pushed folder
      -- children are witnessed by their own just-collected entry
      intro q hq
      rcases processChildren_stack_mem pfx n.childrenOf acc stack q hq with
        hin | ⟨c, hc, hfold, hqe⟩
      · rcases hstk q (List.mem_cons_of_mem _ hin) with h0 | ⟨a, ha, haf, hap⟩
        · exact Or.inl h0
        · refine Or.inr ⟨a, ?_, haf, hap⟩
          rw [processChildren_acc]
          exact List.mem_append_left _ ha
      · refine Or.inr ⟨entryOf pfx c, ?_, ?_, ?_⟩
        · rw [processChildren_acc]
          exact List.mem_append_right _ (List.mem_map_of_mem (entryOf pfx) hc)
        · simp [entryOf, hfold]
        · simp [entryOf, hqe]
    · -- the new accumulator: old entries keep their witness, new entries
      -- extend the popped prefix, itself empty or a collected folder path
      intro e he
      rw [processChildren_acc] at he ⊢
      rcases List.mem_append.mp he with hold | hnew
      · rcases hacc e hold with h0 | ⟨a, ha, haf, hap⟩
        · exact Or.inl h0
        · exact Or.inr ⟨a, List.mem_append_left _ ha, haf, hap⟩
      · rcases List.mem_map.mp hnew with ⟨c, hc, hce⟩
        by_cases hp : pfx = ""
        · subst hp
          subst hce
          exact Or.inl (by simp [entryOf, fullPath])
        · rcases hstk (n, pfx) (List.mem_cons_self _ _) with h0 | ⟨a, ha, haf, hap⟩
          · exact absurd h0 hp
          · subst hce
            refine Or.inr ⟨a, List.mem_append_left _ ha, haf, ?_⟩
            simp [entryOf, fullPath, if_neg hp, hap]

/-- Claim C5: every entry the walk produces is prefix-consistent — a child
discovered under the empty root prefix has path equal to its own name, and
any other entry's path is the path of a collected folder entry (its
parent) extended by `"/"` and its own name. -/
theorem walk_prefix_consistent (root : Node) :
    ∀ e ∈ (walk_onedrive root).2, e.path = e.name ∨
      ∃ a ∈ (walk_onedrive root).2, a.is_folder = true ∧
        e.path = a.path ++ "/" ++ e.name := by
  intro e he
  refine walkLoop_paths [(root, "")] [] ?_ ?_ e he
  · intro q hq
    rcases List.mem_singleton.mp hq with rfl
    exact Or.inl rfl
  · intro e he
    exact absurd he (List.not_mem_nil e)

/-- Witness for C5: on the tree `Root / A / x.pdf`, the entry discovered
for `x.pdf` satisfies the prefix-consistency disjunction. -/
theorem walk_prefix_consistent_witness :
    (Entry.mk "x" "A/x.pdf" "x.pdf" false 3 none none).path =
        (Entry.mk "x" "A/x.pdf" "x.pdf" false 3 none none).name ∨
      ∃ a ∈ (walk_onedrive (Node.folder (Meta.mk "r" "Root" 0 none none)
          [Node.folder (Meta.mk "a" "A" 0 none none)
            [Node.file (Meta.mk "x" "x.pdf" 3 none none)]])).2,
        a.is_folder = true ∧
          (Entry.mk "x" "A/x.pdf" "x.pdf" false 3 none none).path =
            a.path ++ "/" ++ (Entry.mk "x" "A/x.pdf" "x.pdf" false 3 none none).name :=
  walk_prefix_consistent
    (Node.folder (Meta.mk "r" "Root" 0 none none)
      [Node.folder (Meta.mk "a" "A" 0 none none)
        [Node.file (Meta.mk "x" "x.pdf" 3 none none)]])
    (Entry.mk "x" "A/x.pdf" "x.pdf" false 3 none none)
    (by
      simp [walk_onedrive, walkLoop, processChildren, entryOf, fullPath,
        Node.childrenOf, Node.meta, Node.isFolderN])

/-! ### The classifier: `_categorize_file` (onedrive_tree.py lines 183-205) -/

/-- Models `pathlib.PurePath(name).suffix` for POSIX names: take the last path
component `base`, then the substring of `base` from its rightmost dot,
provided that dot is neither the component's first nor its last character
(CPython's `0 < base.rfind(".") < len(base) - 1` rule).  `ext` below is the
reversed run of characters after the rightmost dot, so the rightmost dot
sits at index `base.length - ext.length - 1`. -/
def pySuffix (name : String) : String :=
  let base := (name.data.reverse.takeWhile (fun c => c != '/')).reverse
  let ext := base.reverse.takeWhile (fun c => c != '.')
  if base.contains '.' && !ext.isEmpty && decide (ext.length + 1 < base.length) then
    ⟨'.' :: ext.reverse⟩
  else ""

/-- Python `str.lower()`, character by character (the names involved are
ASCII, where `Char.toLower` agrees with Python). -/
def pyLower (s : String) : String :=
  ⟨s.data.map Char.toLower⟩

/-- Python `str.lstrip(".")`: remove every leading dot. -/
def lstripDots (s : String) : String :=
  ⟨s.data.dropWhile (· == '.')⟩

/-- Models `Path(name).suffix.lower().lstrip(".")` (line 198). -/
def extKey (name : String) : String :=
  lstripDots (pyLower (pySuffix name))

/-- The fixed category table (lines 183-193), in dict insertion order; each
extension set is listed as in the source (membership is all that is
consumed). -/
def CATEGORY_EXTENSIONS : List (String × List String) :=
  [("Documents", ["pdf", "doc", "docx", "txt", "rtf", "odt"]),
   ("Spreadsheets", ["xls", "xlsx", "ods", "csv"]),
   ("Presentations", ["ppt", "pptx", "key", "odp"]),
   ("Images", ["jpg", "jpeg", "png", "gif", "bmp", "tiff", "svg", "webp", "heic"]),
   ("Videos", ["mp4", "mov", "avi", "mkv", "wmv"]),
   ("Audio", ["mp3", "wav", "aac", "flac", "ogg"]),
   ("Archives", ["zip", "rar", "7z", "tar", "gz"]),
   ("Data", ["json", "xml", "yaml", "yml", "parquet"]),
   ("Code", ["py", "js", "ts", "java", "cs", "cpp", "ipynb"])]

/-- Models `_categorize_file` (lines 196-205): empty extension maps to Misc,
otherwise the first category whose set contains the extension, else Misc. -/
def categorize_file (name : String) : String :=
  let ext := extKey name
  if ext = "" then "Misc"
  else
    match CATEGORY_EXTENSIONS.find? (fun ce => ce.2.contains ext) with
    | some ce => ce.1
    | none => "Misc"

/-- Claim C6: `_categorize_file` is a total function of the lower-cased,
dot-stripped final extension alone; extension-less and unmatched names map
to Misc; and the three cited examples evaluate as the spec states. -/
theorem categorize_file_spec :
    (∀ a b : String, extKey a = extKey b → categorize_file a = categorize_file b) ∧
    (∀ name : String, extKey name = "" → categorize_file name = "Misc") ∧
    (∀ name : String, (∀ ce ∈ CATEGORY_EXTENSIONS, extKey name ∉ ce.2) →
      categorize_file name = "Misc") ∧
    categorize_file "report.PDF" = "Documents" ∧
    categorize_file "archive.tar.gz" = "Archives" ∧
    pySuffix "archive.tar.gz" = ".gz" ∧
    categorize_file "noext" = "Misc" := by
  refine ⟨?_, ?_, ?_, by decide, by decide, by decide, by decide⟩
  · intro a b h
    simp only [categorize_file, h]
  · intro name h
    show (if extKey name = "" then "Misc"
      else match CATEGORY_EXTENSIONS.find? (fun ce => ce.2.contains (extKey name)) with
        | some ce => ce.1
        | none => "Misc") = "Misc"
    rw [if_pos h]
  · intro name h
    by_cases he : extKey name = ""
    · show (if extKey name = "" then "Misc"
        else match CATEGORY_EXTENSIONS.find? (fun ce => ce.2.contains (extKey name)) with
          | some ce => ce.1
          | none => "Misc") = "Misc"
      rw [if_pos he]
    · have hfind :
          CATEGORY_EXTENSIONS.find? (fun ce => ce.2.contains (extKey name)) = none := by
        rw [List.find?_eq_none]
        intro ce hce
        simpa using h ce hce
      show (if extKey name = "" then "Misc"
        else match CATEGORY_EXTENSIONS.find? (fun ce => ce.2.contains (extKey name)) with
          | some ce => ce.1
          | none => "Misc") = "Misc"
      rw [if_neg he, hfind]

/-- Witness for C6: the general clauses applied at concrete names — two
names sharing the extension `txt` classify identically, the empty name is
extension-less, and `xyz` matches no category set. -/
theorem categorize_file_spec_witness :
    categorize_file "a.txt" = categorize_file "b.txt" ∧
    categorize_file "" = "Misc" ∧
    categorize_file "file.xyz" = "Misc" :=
  ⟨categorize_file_spec.1 "a.txt" "b.txt" (by decide),
   categorize_file_spec.2.1 "" (by decide),
   categorize_file_spec.2.2.1 "file.xyz" (by decide)⟩

/-! ### The structure reporter: `_format_original_structure`
(onedrive_tree.py lines 160-180) -/

/-- Python string comparison `a < b`: code-point lexicographic order on the
characters. -/
def strLt (a b : String) : Prop :=
  List.Lex (· < ·) a.data b.data

instance : DecidableRel strLt :=
  fun a b => List.Lex.decidableRel _ a.data b.data

/-- The non-strict comparison a Python stable sort effectively uses:
`a` may stay before `b` unless `b < a`. -/
def strOrdLe (a b : String) : Prop :=
  ¬ strLt b a

instance : DecidableRel strOrdLe :=
  fun _ _ => instDecidableNot

theorem strLt_trichot (a b : String) : strLt a b ∨ a.data = b.data ∨ strLt b a :=
  trichotomous_of (List.Lex (· < ·)) a.data b.data

theorem strLt_asymmetric {a b : String} (h : strLt a b) : ¬ strLt b a :=
  asymm_of (List.Lex (· < ·)) h

theorem strLt_transitive {a b c : String} (h1 : strLt a b) (h2 : strLt b c) :
    strLt a c :=
  trans_of (List.Lex (· < ·)) h1 h2

theorem strLt_irrefl (a : String) : ¬ strLt a a :=
  irrefl_of (List.Lex (· < ·)) a.data

/-- The sort key comparison of `sorted(items, key=lambda item:
item["path"].lower())` (line 162), lifted to entries. -/
def pathKeyLe (a b : Entry) : Prop :=
  strOrdLe (pyLower a.path) (pyLower b.path)

instance : DecidableRel pathKeyLe :=
  fun _ _ => instDecidableNot

instance : IsTrans Entry pathKeyLe := by
  constructor
  intro a b c hab hbc hca
  rcases strLt_trichot (pyLower a.path) (pyLower b.path) with h | h | h
  · exact hbc (strLt_transitive hca h)
  · refine hbc ?_
    unfold strLt at hca ⊢
    rwa [h] at hca
  · exact hab h

instance : IsTotal Entry pathKeyLe := by
  constructor
  intro a b
  by_cases h : strLt (pyLower a.path) (pyLower b.path)
  · exact Or.inl (fun hba => strLt_asymmetric h hba)
  · exact Or.inr h

/-- Models `sorted(items, key=lambda item: item["path"].lower())`: a stable sort
by the case-folded path.  Insertion sort with `pathKeyLe` is stable and
sorts by the same total preorder as Python's Timsort, and a stable sort by
a total preorder has a unique result, so this is the very list Python
builds. -/
def sortedEntries (items : List Entry) : List Entry :=
  List.insertionSort pathKeyLe items

/-- Models `path.count("/")`. -/
def countChar (s : String) (c : Char) : Nat :=
  (s.data.filter (· == c)).length

/-- Python `s * n` string repetition. -/
def pyRepeat (s : String) : Nat → String
  | 0 => ""
  | n + 1 => s ++ pyRepeat s n

/-- The line rendered for one entry (lines 170-178): entries with an empty
path are skipped, the rest are indented by `4 * (path.count("/") + 1)`
spaces and folders get a trailing `/`. -/
def itemLine (e : Entry) : Option String :=
  if e.path = "" then none
  else some (pyRepeat "    " (countChar e.path '/' + 1) ++ "- " ++ e.name ++
    (if e.is_folder then "/" else ""))

/-- The list of lines `_format_original_structure` builds (lines 160-180). -/
def originalLines (items : List Entry) (rootName : String) : List String :=
  ["Current OneDrive structure", "Root: " ++ rootName, "", rootName ++ "/"] ++
    (sortedEntries items).filterMap itemLine

/-- Models `_format_original_structure`: the lines joined by newlines, plus a
trailing newline. -/
def format_original_structure (items : List Entry) (rootName : String) : String :=
  String.intercalate "\n" (originalLines items rootName) ++ "\n"

theorem pyLower_append (a b : String) :
    pyLower (a ++ b) = pyLower a ++ pyLower b := by
  apply String.ext
  simp [pyLower]

theorem lex_lt_append (l : List Char) {t : List Char} (ht : t ≠ []) :
    List.Lex (· < ·) l (l ++ t) := by
  induction l with
  | nil =>
    cases t with
    | nil => exact absurd rfl ht
    | cons c cs => exact List.Lex.nil
  | cons a as ih => exact List.Lex.cons ih

theorem strLt_self_append (a t : String) (ht : t.data ≠ []) :
    strLt a (a ++ t) := by
  unfold strLt
  rw [String.data_append]
  exact lex_lt_append a.data ht

theorem countChar_append (a b : String) (c : Char) :
    countChar (a ++ b) c = countChar a c + countChar b c := by
  simp [countChar, String.data_append, List.filter_append]

theorem pyLower_slash_append_ne_nil (s : String) :
    (pyLower "/" ++ pyLower s).data ≠ [] := by
  simp [pyLower, String.data_append]

/-- Claim C7: `_format_original_structure` renders the entries sorted by
case-insensitive path (a permutation of the input, pairwise ordered on the
lowered paths), each line indented by `4 * (slash count + 1)` spaces with a
`/` suffix on folders; consequently any entry whose path lies strictly
below a folder's path appears after that folder in the sorted list, and an
immediate child's depth is the parent's depth plus one. -/
theorem format_original_spec (items : List Entry) (rootName : String) :
    (sortedEntries items).Perm items ∧
    (sortedEntries items).Pairwise pathKeyLe ∧
    (∀ e ∈ items, e.path ≠ "" →
      itemLine e = some (pyRepeat "    " (countChar e.path '/' + 1) ++ "- " ++
        e.name ++ (if e.is_folder then "/" else ""))) ∧
    (originalLines items rootName =
      ["Current OneDrive structure", "Root: " ++ rootName, "", rootName ++ "/"] ++
        (sortedEntries items).filterMap itemLine) ∧
    (∀ (i j : Nat) (hi : i < (sortedEntries items).length)
        (hj : j < (sortedEntries items).length) (s : String),
      ((sortedEntries items)[j]).path = ((sortedEntries items)[i]).path ++ "/" ++ s →
      ((sortedEntries items)[i]).is_folder = true → i < j) ∧
    (∀ p c s : String, c = p ++ "/" ++ s → countChar s '/' = 0 →
      countChar c '/' + 1 = (countChar p '/' + 1) + 1) := by
  refine ⟨List.perm_insertionSort pathKeyLe items,
    List.sorted_insertionSort pathKeyLe items, ?_, rfl, ?_, ?_⟩
  · intro e _ hne
    simp [itemLine, hne]
  · intro i j hi hj s hpath hfold
    have hsort : (sortedEntries items).Pairwise pathKeyLe :=
      List.sorted_insertionSort pathKeyLe items
    have hlt : strLt (pyLower ((sortedEntries items)[i]).path)
        (pyLower ((sortedEntries items)[j]).path) := by
      rw [hpath, String.append_assoc, pyLower_append]
      exact strLt_self_append _ _ (pyLower_slash_append_ne_nil s)
    rcases Nat.lt_trichotomy i j with h | h | h
    · exact h
    · exfalso
      subst h
      exact strLt_irrefl _ hlt
    · exfalso
      exact (List.pairwise_iff_getElem.mp hsort j i hj hi h) hlt
  · intro p c s hc hs
    rw [hc, countChar_append, countChar_append]
    have h1 : countChar "/" '/' = 1 := rfl
    omega

/-- Witness for C7, on the spec's own example
`[{path: "A/x.pdf"}, {path: "A", folder}]`: the folder line formula, the
parent-before-child index order in the sorted list (`A` at 0, `A/x.pdf`
at 1), and the one-level-deeper depth. -/
theorem format_original_spec_witness :
    itemLine (Entry.mk "2" "A" "A" true 0 none none) =
      some (pyRepeat "    " (countChar "A" '/' + 1) ++ "- " ++ "A" ++
        (if (Entry.mk "2" "A" "A" true 0 none none).is_folder then "/" else "")) ∧
    (0 : Nat) < 1 ∧
    countChar "A/x.pdf" '/' + 1 = (countChar "A" '/' + 1) + 1 :=
  ⟨(format_original_spec
      [Entry.mk "1" "A/x.pdf" "x.pdf" false 1 none none,
       Entry.mk "2" "A" "A" true 0 none none] "Root").2.2.1
      (Entry.mk "2" "A" "A" true 0 none none) (by decide) (by decide),
   (format_original_spec
      [Entry.mk "1" "A/x.pdf" "x.pdf" false 1 none none,
       Entry.mk "2" "A" "A" true 0 none none] "Root").2.2.2.2.1
      0 1 (by decide) (by decide) "x.pdf" (by decide) (by decide),
   (format_original_spec
      [Entry.mk "1" "A/x.pdf" "x.pdf" false 1 none none,
       Entry.mk "2" "A" "A" true 0 none none] "Root").2.2.2.2.2
      "A" "A/x.pdf" "x.pdf" (by decide) (by decide)⟩

/-! ### The structure reporter: `_format_recommended_structure`
(onedrive_tree.py lines 208-246) -/

/-- The bucket `files_by_category[cat]` (lines 210-216): the paths of the
non-folder items whose name classifies to `cat`, in input order. -/
def bucketPaths (items : List Entry) (cat : String) : List String :=
  (items.filter (fun e => !e.is_folder && (categorize_file e.name == cat))).map
    (fun e => e.path)

/-- Python `sorted` on strings (code-point lexicographic, stable). -/
def sortStrings (l : List String) : List String :=
  List.insertionSort strOrdLe l

instance : IsTrans String strOrdLe := by
  constructor
  intro a b c hab hbc hca
  rcases strLt_trichot a b with h | h | h
  · exact hbc (strLt_transitive hca h)
  · refine hbc ?_
    unfold strLt at hca ⊢
    rwa [h] at hca
  · exact hab h

instance : IsTotal String strOrdLe := by
  constructor
  intro a b
  by_cases h : strLt a b
  · exact Or.inl (fun hba => strLt_asymmetric h hba)
  · exact Or.inr h

/-- Models `sorted(files_by_category.keys())` (line 231): the distinct categories
that received at least one file, sorted. -/
def usedCategories (items : List Entry) : List String :=
  sortStrings (((items.filter (fun e => !e.is_folder)).map
    (fun e => categorize_file e.name)).dedup)

/-- Models `sorted({item["path"].split("/")[0] for item in items if
item.get("path")})` (line 218); `split("/")[0]` is the prefix before the
first slash. -/
def topLevels (items : List Entry) : List String :=
  sortStrings (((items.filter (fun e => e.path != "")).map
    (fun e => (⟨e.path.data.takeWhile (· != '/')⟩ : String))).dedup)

/-- The lines emitted for one category (lines 232-236): the header with
the bucket size, up to three samples, and the action line. -/
def categorySection (items : List Entry) (cat : String) : List String :=
  (cat ++ "/  (files: " ++ toString (bucketPaths items cat).length ++ ")") ::
    (((bucketPaths items cat).take 3).map (fun p => "    • sample: " ++ p) ++
      ["    • action: move related files into this folder"])

/-- The list of lines `_format_recommended_structure` builds
(lines 208-246), with the `Misc` fallback of lines 238-240. -/
def recommendedLines (items : List Entry) (rootName : String) : List String :=
  ["Suggested simplified structure", "Reference root: " ++ rootName, "",
    "Current top-level folders:"] ++
  (topLevels items).map (fun f => "- " ++ f ++ "/") ++
  ["", "Suggested new parent folders with sample files:"] ++
  ((usedCategories items).map (categorySection items)).flatten ++
  (if "Misc" ∈ usedCategories items then [] else
    ["Misc/  (files: 0)", "    • action: catch-all for uncategorized items"]) ++
  ["", "Note: The suggestion is based on file extensions. Review the content and tailor",
    "folder names if needed."]

/-- Models `_format_recommended_structure`: the lines joined by newlines, plus a
trailing newline. -/
def format_recommended_structure (items : List Entry) (rootName : String) : String :=
  String.intercalate "\n" (recommendedLines items rootName) ++ "\n"

theorem mem_usedCategories (items : List Entry) (cat : String) :
    cat ∈ usedCategories items ↔
      ∃ e ∈ items, e.is_folder = false ∧ categorize_file e.name = cat := by
  unfold usedCategories sortStrings
  rw [(List.perm_insertionSort strOrdLe _).mem_iff, List.mem_dedup, List.mem_map]
  constructor
  · rintro ⟨e, he, rfl⟩
    rcases List.mem_filter.mp he with ⟨hin, hnf⟩
    exact ⟨e, hin, by simpa using hnf, rfl⟩
  · rintro ⟨e, he, hnf, rfl⟩
    exact ⟨e, List.mem_filter.mpr ⟨he, by simpa using hnf⟩, rfl⟩

theorem usedCategories_of_bucket_ne_nil (items : List Entry) (cat : String)
    (h : bucketPaths items cat ≠ []) : cat ∈ usedCategories items := by
  rcases List.exists_mem_of_ne_nil _ h with ⟨p, hp⟩
  rcases List.mem_map.mp hp with ⟨e, he, rfl⟩
  rcases List.mem_filter.mp he with ⟨hin, hcond⟩
  rcases Bool.and_eq_true_iff.mp hcond with ⟨hnf, hcat⟩
  exact (mem_usedCategories items cat).mpr
    ⟨e, hin, by simpa using hnf, by simpa using hcat⟩

theorem section_line_mem (items : List Entry) (rootName cat : String)
    (hcat : cat ∈ usedCategories items) (line : String)
    (hline : line ∈ categorySection items cat) :
    line ∈ recommendedLines items rootName := by
  have hmem : line ∈ ((usedCategories items).map (categorySection items)).flatten :=
    List.mem_flatten.mpr ⟨categorySection items cat,
      List.mem_map_of_mem (categorySection items) hcat, hline⟩
  simp only [recommendedLines, List.mem_append]
  tauto

/-- Claim C8: the recommended-structure text always contains a `Misc`
section reporting that bucket's size (`0` when no file classified as
Misc); every used category's section reports its bucket size and at most
three sample paths, each of which appears in the text; and every bucketed
path belongs to a non-folder entry. -/
theorem format_recommended_spec (items : List Entry) (rootName : String) :
    (("Misc/  (files: " ++ toString (bucketPaths items "Misc").length ++ ")") ∈
      recommendedLines items rootName) ∧
    (∀ cat ∈ usedCategories items,
      ((cat ++ "/  (files: " ++ toString (bucketPaths items cat).length ++ ")") ∈
        recommendedLines items rootName) ∧
      (∀ p ∈ (bucketPaths items cat).take 3,
        ("    • sample: " ++ p) ∈ recommendedLines items rootName) ∧
      ((bucketPaths items cat).take 3).length ≤ 3) ∧
    (∀ cat : String, ∀ p ∈ bucketPaths items cat,
      ∃ e ∈ items, e.is_folder = false ∧ e.path = p) := by
  refine ⟨?_, ?_, ?_⟩
  · by_cases hm : "Misc" ∈ usedCategories items
    · exact section_line_mem items rootName "Misc" hm _
        (List.mem_cons_self _ _)
    · have hb : bucketPaths items "Misc" = [] := by
        by_contra hne
        exact hm (usedCategories_of_bucket_ne_nil items "Misc" hne)
      rw [hb]
      have hstr : ("Misc/  (files: " ++ toString ([] : List String).length ++ ")") =
          "Misc/  (files: 0)" := by decide
      rw [hstr]
      simp only [recommendedLines, List.mem_append, if_neg hm]
      simp
  · intro cat hcat
    refine ⟨section_line_mem items rootName cat hcat _ (List.mem_cons_self _ _),
      ?_, ?_⟩
    · intro p hp
      refine section_line_mem items rootName cat hcat _ ?_
      exact List.mem_cons_of_mem _ (List.mem_append_left _
        (List.mem_map_of_mem _ hp))
    · simp [List.length_take]
  · intro cat p hp
    rcases List.mem_map.mp hp with ⟨e, he, rfl⟩
    rcases List.mem_filter.mp he with ⟨hin, hcond⟩
    rcases Bool.and_eq_true_iff.mp hcond with ⟨hnf, _⟩
    exact ⟨e, hin, by simpa using hnf, rfl⟩

/-- Witness for C8 on one folder `A` plus one file `A/r.pdf`: no file is
Misc yet the zero-count Misc line is present, the Documents section line
and its sample are present, and the only bucketed path comes from the
non-folder entry. -/
theorem format_recommended_spec_witness :
    (("Misc/  (files: " ++ toString (bucketPaths
        [Entry.mk "1" "A" "A" true 0 none none,
         Entry.mk "2" "A/r.pdf" "r.pdf" false 1 none none] "Misc").length ++ ")") ∈
      recommendedLines
        [Entry.mk "1" "A" "A" true 0 none none,
         Entry.mk "2" "A/r.pdf" "r.pdf" false 1 none none] "Root") ∧
    (("Documents" ++ "/  (files: " ++ toString (bucketPaths
        [Entry.mk "1" "A" "A" true 0 none none,
         Entry.mk "2" "A/r.pdf" "r.pdf" false 1 none none] "Documents").length ++ ")") ∈
      recommendedLines
        [Entry.mk "1" "A" "A" true 0 none none,
         Entry.mk "2" "A/r.pdf" "r.pdf" false 1 none none] "Root") ∧
    (∃ e ∈ [Entry.mk "1" "A" "A" true 0 none none,
        Entry.mk "2" "A/r.pdf" "r.pdf" false 1 none none],
      e.is_folder = false ∧ e.path = "A/r.pdf") :=
  ⟨(format_recommended_spec
      [Entry.mk "1" "A" "A" true 0 none none,
       Entry.mk "2" "A/r.pdf" "r.pdf" false 1 none none] "Root").1,
   ((format_recommended_spec
      [Entry.mk "1" "A" "A" true 0 none none,
       Entry.mk "2" "A/r.pdf" "r.pdf" false 1 none none] "Root").2.1
      "Documents" (by decide)).1,
   (format_recommended_spec
      [Entry.mk "1" "A" "A" true 0 none none,
       Entry.mk "2" "A/r.pdf" "r.pdf" false 1 none none] "Root").2.2
      "Documents" "A/r.pdf" (by decide)⟩

/-! ### The orchestrator: `_run_option_auto_classification`
(onedrive_tree.py lines 263-287), with `walk_onedrive` run against an
abstract children fetcher so that fetch failures can occur mid-walk. -/

/-- The fields of one raw child dict consumed by the walk loop
(lines 108-114). -/
structure Item where
  id : String
  name : String
  isFolder : Bool
  size : Nat
  lastModified : Option String
  webUrl : Option String
deriving DecidableEq, Repr

/-- The Entry built for a raw child discovered under prefix `pfx`. -/
def entryOfItem (pfx : String) (c : Item) : Entry :=
  { id := c.id
    path := fullPath pfx c.name
    name := c.name
    is_folder := c.isFolder
    size := c.size
    last_modified := c.lastModified
    web_url := c.webUrl }

/-- The `for child in children` body over raw children (lines 108-132). -/
def processItems (pfx : String) :
    List Item → List Entry → List (String × String) → List Entry × List (String × String)
  | [], acc, stack => (acc, stack)
  | c :: cs, acc, stack =>
    processItems pfx cs (acc ++ [entryOfItem pfx c])
      (if c.isFolder then (c.id, fullPath pfx c.name) :: stack else stack)

def GRAPH_BASE_URL : String := "https://graph.microsoft.com/v1.0"

/-- Models `f"{GRAPH_BASE_URL}/me/drive/items/{current_id}/children"` (line 105). -/
def childrenUrl (i : String) : String :=
  GRAPH_BASE_URL ++ "/me/drive/items/" ++ i ++ "/children"

/-- Models `graph_get(children_url, access_token)` run against a per-URL response
script: the children list, a propagated fetch error, or `none` when the
script is exhausted. -/
def fetchVia (script : String → List (Response Item)) (i : String) :
    Option (Except FetchErr (List Item)) :=
  (graph_get_run (script (childrenUrl i)) (some (childrenUrl i))
    (none : Option Unit) [] [] []).1

/-- The walk loop of `walk_onedrive` (lines 102-132) over an abstract
fetcher, with fuel (the loop itself has no recursion bound; `none` means
the fuel ran out).  A fetch error propagates immediately — the loop has no
handler. -/
def walkE (fetch : String → Option (Except FetchErr (List Item))) :
    Nat → List (String × String) → List Entry → Option (Except FetchErr (List Entry))
  | _, [], acc => some (.ok acc)
  | 0, _ :: _, _ => none
  | fuel + 1, (i, pfx) :: stack, acc =>
    match fetch i with
    | none => none
    | some (.error e) => some (.error e)
    | some (.ok children) =>
      walkE fetch fuel (processItems pfx children acc stack).2
        (processItems pfx children acc stack).1

/-- The parsed body of `GET {base}/me/drive/root` (lines 89-94):
`root["id"]` is mandatory, `root.get("name", "root")` defaults. -/
structure RootObj where
  id : String
  name : Option String
deriving DecidableEq, Repr

/-- One output artifact written by the orchestrator, in write order:
the CSV export (line 269), the two text reports (lines 275-276), and the
state file (line 287). -/
inductive WriteEvent where
  | csvExport (rows : List Entry)
  | writeText (file : String) (content : String)
  | writeState (rootName : String) (totalItems : Nat)
deriving DecidableEq, Repr

def ORIGINAL_STRUCTURE_FILE : String := "original_structure.txt"

def RECOMMENDED_STRUCTURE_FILE : String := "recommended_structure.txt"

/-- Models `_run_option_auto_classification` (lines 263-287): resolve the root,
walk the tree, then — only after the walk returns — write the CSV, the two
reports and the state file.  The second component is the list of artifacts
actually written. -/
def run_auto (rootResp : Option (Except FetchErr RootObj))
    (fetch : String → Option (Except FetchErr (List Item))) (fuel : Nat) :
    Option (Except FetchErr Unit) × List WriteEvent :=
  match rootResp with
  | none => (none, [])
  | some (.error e) => (some (.error e), [])
  | some (.ok root) =>
    match walkE fetch fuel [(root.id, "")] [] with
    | none => (none, [])
    | some (.error e) => (some (.error e), [])
    | some (.ok results) =>
      (some (.ok ()),
        [.csvExport results,
         .writeText ORIGINAL_STRUCTURE_FILE
           (format_original_structure results (root.name.getD "root")),
         .writeText RECOMMENDED_STRUCTURE_FILE
           (format_recommended_structure results (root.name.getD "root")),
         .writeState (root.name.getD "root") results.length])

/-- Counterexample to C9 as stated: a non-2xx, non-throttle status (301)
whose body happens to be valid JSON does NOT propagate an error —
`raise_for_status` raises only for 4xx/5xx, so the response is processed
as a page, the walk succeeds, and all four artifacts are written. -/
theorem non2xx_accepted_counterexample :
    ((fun url => if url = childrenUrl "r" then
        [Response.mk 301 none (some (Page.mk ([] : List Item) none))]
      else []) (childrenUrl "r")).all (fun r => decide (r.status = 301)) = true ∧
    (run_auto (some (.ok (RootObj.mk "r" (some "Root"))))
      (fetchVia (fun url => if url = childrenUrl "r" then
        [Response.mk 301 none (some (Page.mk ([] : List Item) none))]
      else [])) 1).1 = some (.ok ()) ∧
    (run_auto (some (.ok (RootObj.mk "r" (some "Root"))))
      (fetchVia (fun url => if url = childrenUrl "r" then
        [Response.mk 301 none (some (Page.mk ([] : List Item) none))]
      else [])) 1).2 ≠ [] := by
  refine ⟨by decide, ?_, ?_⟩ <;>
    simp [run_auto, walkE, fetchVia, graph_get_run, isThrottle, raisesForStatus,
      processItems]

/-- Claim C9 (amended): a 4xx/5xx status other than 429/503 makes
`graph_get` raise `HTTPError` immediately, and a fetch error during the
walk aborts the run with no artifact written at all — the entries
collected before the failure are discarded.  (Non-200 statuses outside
400-599 are not raised by `raise_for_status` and are processed as pages.) -/
theorem run_error_no_artifacts (α P : Type) :
    (∀ (r : Response α) (rest : List (Response α)) (u : String)
      (params : Option P) (items : List α)
      (reqs : List (String × Option P)) (sleeps : List Int),
      400 ≤ r.status → r.status < 600 → r.status ≠ 429 → r.status ≠ 503 →
      (graph_get_run (r :: rest) (some u) params items reqs sleeps).1 =
        some (.error (.http r.status))) ∧
    (∀ (root : RootObj) (fetch : String → Option (Except FetchErr (List Item)))
      (fuel : Nat) (e : FetchErr),
      walkE fetch fuel [(root.id, "")] [] = some (.error e) →
      run_auto (some (.ok root)) fetch fuel = (some (.error e), [])) := by
  constructor
  · intro r rest u params items reqs sleeps h400 h600 h429 h503
    have ht : isThrottle r = false := by
      simp only [isThrottle, Bool.or_eq_false_iff, beq_eq_false_iff_ne]
      exact ⟨h429, h503⟩
    have hs : (r.status != 200 && raisesForStatus r.status) = true := by
      simp only [raisesForStatus, Bool.and_eq_true, bne_iff_ne, ne_eq,
        decide_eq_true_eq]
      omega
    simp [graph_get_run, ht, hs]
  · intro root fetch fuel e h
    simp [run_auto, h]

/-- Witness for the amended C9: a 404 on the root's children endpoint; the
fetch surfaces `HTTPError(404)` and the run aborts having written
nothing. -/
theorem run_error_no_artifacts_witness :
    (graph_get_run [Response.mk 404 none (none : Option (Page Nat))]
      (some "u") (some "p") ([] : List Nat) [] []).1 =
        some (.error (.http 404)) ∧
    run_auto (some (.ok (RootObj.mk "r" none)))
      (fetchVia (fun _ => [Response.mk 404 none (none : Option (Page Item))])) 1 =
        (some (.error (.http 404)), []) :=
  ⟨by
    have h := (run_error_no_artifacts Nat String).1
      (Response.mk 404 none none) [] "u" (some "p") [] [] []
      (by decide) (by decide) (by decide) (by decide)
    simpa using h,
   (run_error_no_artifacts Nat String).2 (RootObj.mk "r" none)
      (fetchVia (fun _ => [Response.mk 404 none (none : Option (Page Item))])) 1
      (.http 404) (by decide)⟩

end ODOrg
